import Mathlib

/-!
Shallow embedding of the kevin-rs/duckduckgo core (src/browser.rs together
with src/response.rs, src/topic.rs, src/icon.rs and src/colors.rs), and
theorems settling the spec's claims against it.  The HTTP transport, the
HTML5 parser and the chrono time library are external collaborators: they
appear as abstract inputs (page sequences, parsed node trees, a clock
record), while everything the repository's own code computes is embedded
as executable Lean definitions.
-/

deriving instance DecidableEq for Except

namespace DuckDuckGo

/-! ## HTTP request gateway (Browser::request, Browser::browse) -/

/-- An outbound HTTP request as the code assembles it: method, URL, the
ordered query-parameter list, and the headers the code itself attaches
(headers added by the transport by default are not listed here). -/
structure HttpRequest where
  method : String
  url : String
  query : List (String × String)
  headers : List (String × String)
deriving DecidableEq, Repr

/-- The four fixed headers attached by Browser::request (src/browser.rs:74-77). -/
def fixedHeaders (user_agent : String) : List (String × String) :=
  [("User-Agent", user_agent),
   ("Accept", "application/json"),
   ("Referer", "https://duckduckgo.com/"),
   ("Accept-Language", "en-US,en;q=0.9")]

/-- Embeds Browser::request (src/browser.rs:63-81): the request carries the
caller's query parameters and exactly the four fixed headers. -/
def request (method url user_agent : String) (params : List (String × String)) : HttpRequest :=
  { method := method, url := url, query := params, headers := fixedHeaders user_agent }

/-- Embeds the BASE_URL constant (src/browser.rs:12). -/
def BASE_URL : String := "https://api.duckduckgo.com/"

/-- Embeds the URL construction in Browser::browse (src/browser.rs:423-424). -/
def browseUrl (path : String) : String :=
  let separator := if path.toList.contains '?' then "&" else "?"
  BASE_URL ++ path ++ separator ++ "format=json"

/-- Embeds the request issued by Browser::browse (src/browser.rs:426-431):
a bare client.get(url).send() with no explicitly attached headers. -/
def browseRequest (path : String) : HttpRequest :=
  { method := "GET", url := browseUrl path, query := [], headers := [] }

/-- Embeds the request issued by Browser::get_vqd (src/browser.rs:107-114). -/
def vqdRequest (query user_agent : String) : HttpRequest :=
  request "GET" "https://duckduckgo.com/" user_agent [("q", query)]

/-- Embeds the request issued by Browser::lite_search (src/browser.rs:160-168). -/
def liteRequest (query region user_agent : String) : HttpRequest :=
  request "POST" "https://lite.duckduckgo.com/lite/" user_agent
    [("q", query), ("kl", region)]

/-- Embeds the initial query parameters of Browser::images (src/browser.rs:240-246). -/
def imagesInitParams (query region vqd : String) (safesearch : Bool) :
    List (String × String) :=
  [("q", query), ("l", region), ("vqd", vqd), ("o", "json"),
   ("p", if safesearch then "1" else "-1")]

/-- Embeds the initial query parameters of Browser::news (src/browser.rs:328-335). -/
def newsInitParams (query region vqd : String) (safesearch : Bool) :
    List (String × String) :=
  imagesInitParams query region vqd safesearch ++ [("noamp", "1")]

/-- Embeds one image-page request of Browser::images (src/browser.rs:254-261). -/
def imagePageRequest (user_agent : String) (params : List (String × String)) : HttpRequest :=
  request "GET" "https://duckduckgo.com/i.js" user_agent params

/-- Embeds one news-page request of Browser::news (src/browser.rs:343-350). -/
def newsPageRequest (user_agent : String) (params : List (String × String)) : HttpRequest :=
  request "GET" "https://duckduckgo.com/news.js" user_agent params

/-! ## Token extractor (Browser::get_vqd, src/browser.rs:106-126)

The regex is the fixed pattern written at src/browser.rs:118: the literal
vqd= followed by an optional single non-newline character, an optional
quote, a captured run of digits and hyphens, and an optional closing quote.
The Rust regex engine uses leftmost-first (greedy, first-success) matching,
which the definitions below reproduce for this one pattern.  The digit
class is modelled over ASCII digits. -/

/-- Character class of the capture group: a digit or a hyphen. -/
def isTokChar (c : Char) : Bool := c.isDigit || c = '-'

/-- Character class of the optional quotes: a single or a double quote. -/
def isQuoteChar (c : Char) : Bool := c = Char.ofNat 39 || c = Char.ofNat 34

/-- Matches the regex tail that starts with the optional quote: an optional
quote character, then the captured nonempty run of digits/hyphens (the
trailing optional quote never affects the capture).  Returns the capture. -/
def matchQD (s : List Char) : Option (List Char) :=
  let s2 := match s with
    | [] => ([] : List Char)
    | c :: rest => if isQuoteChar c then rest else c :: rest
  let cap := s2.takeWhile isTokChar
  if cap = [] then none else some cap

/-- Matches the regex tail after the literal vqd=: the optional wildcard
first greedily consumes one character (a newline is not matched by the
wildcard), and on failure backtracks to consuming nothing. -/
def matchAfterEq (s : List Char) : Option (List Char) :=
  match s with
  | [] => matchQD []
  | c :: rest =>
    if c = Char.ofNat 10 then matchQD (c :: rest)
    else
      match matchQD rest with
      | some cap => some cap
      | none => matchQD (c :: rest)

/-- The literal the regex scan looks for. -/
def vqdLit : List Char := ['v', 'q', 'd', '=']

/-- Leftmost regex search over the body: at each position where the body
starts with vqd=, attempt the tail match; on failure advance one character. -/
def vqdScan : List Char → Option (List Char)
  | [] => none
  | c :: rest =>
    if (c :: rest).take 4 = vqdLit then
      match matchAfterEq ((c :: rest).drop 4) with
      | some cap => some cap
      | none => vqdScan rest
    else vqdScan rest

/-- Embeds the token extraction in Browser::get_vqd (src/browser.rs:116-125):
the regex capture, or the token-missing error. -/
def get_vqd (body : String) : Except String String :=
  match vqdScan body.toList with
  | some cap => Except.ok (String.mk cap)
  | none => Except.error "Missing vqd in response"

/-- Decides whether the body contains the substring vqd= at all (used to
state the token-missing case of the claims). -/
def hasVqdEq : List Char → Bool
  | [] => false
  | c :: rest => if (c :: rest).take 4 = vqdLit then true else hasVqdEq rest

/-- A one-character string holding a single-quote character. -/
def squote : String := String.mk [Char.ofNat 39]

/-! ## Pagination cursor (src/browser.rs:282-287 and 383-388) -/

/-- Embeds Rust str::split with the needle s= : the pieces of the input
between non-overlapping, left-to-right occurrences of the needle. -/
def splitSEq : List Char → List (List Char)
  | [] => [[]]
  | [c] => [[c]]
  | c :: d :: rest =>
    if c = 's' ∧ d = '=' then [] :: splitSEq rest
    else
      match splitSEq (d :: rest) with
      | [] => [[c]]
      | piece :: pieces => (c :: piece) :: pieces

/-- Embeds the cursor extraction next.split("s=").nth(1).unwrap_or("")
performed on a page's next field (src/browser.rs:283, 384). -/
def cursorOfNext (next : String) : String :=
  String.mk (((splitSEq next.toList).get? 1).getD [])

/-- Everything after the first occurrence of s= , when there is one. -/
def afterFirstSEq : List Char → Option (List Char)
  | [] => none
  | [_] => none
  | c :: d :: rest => if c = 's' ∧ d = '=' then some rest else afterFirstSEq (d :: rest)

/-- Everything before the first occurrence of s= (the whole list if none). -/
def beforeFirstSEq : List Char → List Char
  | [] => []
  | [c] => [c]
  | c :: d :: rest => if c = 's' ∧ d = '=' then [] else c :: beforeFirstSEq (d :: rest)

/-- Everything after the last occurrence of s= , when there is one. -/
def afterLastSEq : List Char → Option (List Char)
  | [] => none
  | [_] => none
  | c :: d :: rest =>
    if c = 's' ∧ d = '=' then
      match afterLastSEq rest with
      | some r => some r
      | none => some rest
    else afterLastSEq (d :: rest)

/-- Mirrors the continuation rule as the spec words it (the substring of the
next field's value following the last occurrence of the literal s= ,
extending to the end of the value), to be compared with cursorOfNext. -/
def cursorSpecLastSEq (next : String) : String :=
  String.mk ((afterLastSEq next.toList).getD [])

/-! ## Pagination driver (Browser::images src/browser.rs:250-291,
Browser::news src/browser.rs:339-392)

The loop body of the two functions is identical up to the record
normalizer, so it is embedded once over an abstract record type: the
upstream is the sequence of parsed pages its successive responses would
yield, with Except.error standing for a failed fetch, a non-2xx status or
a JSON parse failure (all of which the code propagates with the ? mark). -/

/-- One parsed page, reduced to the two fields the loop reads: the results
array (absent when the key is missing or not an array) and the next field
(absent when the key is missing or not a string). -/
structure Page (α : Type) where
  results : Option (List α)
  next : Option String
deriving DecidableEq, Repr

/-- Reason the loop stopped: early return at the limit, a page without a
next field, or the modelled page sequence running out while the loop would
still continue. -/
inductive Halt
  | limitHit
  | noNext
  | exhausted
deriving DecidableEq, Repr

/-- Outcome of a pagination run: the accumulated records, the final
query-parameter list, the parameter list used for each issued page request
in order, the number of page requests issued, and why the loop stopped. -/
structure PagResult (α : Type) where
  results : List α
  params : List (String × String)
  trace : List (List (String × String))
  fetched : Nat
  halt : Halt
deriving DecidableEq, Repr

/-- Embeds the stop test limit.is_some_and(|l| results.len() >= l)
(src/browser.rs:276, 377). -/
def reachedLimit (limit : Option Nat) (n : Nat) : Bool :=
  match limit with
  | some l => decide (l ≤ n)
  | none => false

/-- Embeds the inner for-loop over one page's results array: each record is
pushed, and the whole call returns as soon as the accumulator length
reaches the limit.  Returns the new accumulator and whether the early
return fired. -/
def stepItems {α : Type} (limit : Option Nat) : List α → List α → List α × Bool
  | acc, [] => (acc, false)
  | acc, x :: xs =>
    let acc2 := acc ++ [x]
    if reachedLimit limit acc2.length then (acc2, true)
    else stepItems limit acc2 xs

/-- Embeds the pagination loop.  Each iteration records the parameter list
it sends, consumes the next page, appends its records (stopping early at
the limit), and either pushes an ("s", cursor) pair extracted from the next
field and continues, or stops. -/
def runPages {α : Type} (limit : Option Nat) (params : List (String × String))
    (acc : List α) (fetched : Nat) (trace : List (List (String × String))) :
    List (Except String (Page α)) → Except String (PagResult α)
  | [] => Except.ok ⟨acc, params, trace, fetched, Halt.exhausted⟩
  | Except.error e :: _ => Except.error e
  | Except.ok p :: rest =>
    let trace2 := trace ++ [params]
    match stepItems limit acc (p.results.getD []) with
    | (acc2, true) => Except.ok ⟨acc2, params, trace2, fetched + 1, Halt.limitHit⟩
    | (acc2, false) =>
      match p.next with
      | some nxt =>
        runPages limit (params ++ [("s", cursorOfNext nxt)]) acc2 (fetched + 1) trace2 rest
      | none => Except.ok ⟨acc2, params, trace2, fetched + 1, Halt.noNext⟩

/-- Embeds Browser::images after the token fetch: the pagination loop
started on the initial image parameters with an empty accumulator. -/
def imagesLoop {α : Type} (query region vqd : String) (safesearch : Bool)
    (limit : Option Nat) (pages : List (Except String (Page α))) :
    Except String (PagResult α) :=
  runPages limit (imagesInitParams query region vqd safesearch) [] 0 [] pages

/-- Embeds Browser::news after the token fetch: the pagination loop started
on the initial news parameters with an empty accumulator. -/
def newsLoop {α : Type} (query region vqd : String) (safesearch : Bool)
    (limit : Option Nat) (pages : List (Except String (Page α))) :
    Except String (PagResult α) :=
  runPages limit (newsInitParams query region vqd safesearch) [] 0 [] pages

/-- Records of one page (the empty list when the results array is absent). -/
def pageItems {α : Type} (p : Page α) : List α := p.results.getD []

/-- Concatenation of the records of the first k pages, in page order. -/
def joinUpTo {α : Type} (pages : List (Page α)) (k : Nat) : List α :=
  ((pages.take k).map pageItems).flatten

/-- Concatenation of the records of all pages, in page order. -/
def joinAll {α : Type} (pages : List (Page α)) : List α :=
  (pages.map pageItems).flatten

/-- The ("s", cursor) pairs the loop has pushed after consuming the first k
pages: one pair per page that carried a next field, in page order. -/
def sParams {α : Type} (pages : List (Page α)) (k : Nat) : List (String × String) :=
  ((pages.take k).filterMap Page.next).map (fun nxt => ("s", cursorOfNext nxt))

/-! ## JSON model and the image/news record normalizers
(Browser::images src/browser.rs:264-279, Browser::news src/browser.rs:353-375) -/

/-- Model of serde_json::Value.  Numbers are modelled as integers (the
i64/u64 cases the code reads with as_u64 and as_i64; floats, which both
accessors reject, are not modelled). -/
inductive Json
  | null
  | bool (b : Bool)
  | num (n : Int)
  | str (s : String)
  | arr (elems : List Json)
  | obj (fields : List (String × Json))

/-- Embeds string indexing item["key"] on a serde_json::Value: the field's
value in an object, Null when the key is missing or the value is not an
object. -/
def jIndex (j : Json) (key : String) : Json :=
  match j with
  | Json.obj fields =>
    match fields.find? (fun f => f.1 == key) with
    | some f => f.2
    | none => Json.null
  | _ => Json.null

/-- Embeds Value::as_str. -/
def asStr : Json → Option String
  | Json.str s => some s
  | _ => none

/-- Embeds Value::as_u64 on the integer number model. -/
def asU64 : Json → Option Nat
  | Json.num n => if 0 ≤ n ∧ n < 2 ^ 64 then some n.toNat else none
  | _ => none

/-- Embeds Value::as_i64 on the integer number model. -/
def asI64 : Json → Option Int
  | Json.num n => if -(2 ^ 63) ≤ n ∧ n < 2 ^ 63 then some n else none
  | _ => none

/-- Embeds the ImageResult record (src/response.rs). -/
structure ImageResult where
  title : String
  image : String
  thumbnail : String
  url : String
  height : Nat
  width : Nat
  source : String
deriving DecidableEq, Repr

/-- Embeds the image-item normalization in Browser::images
(src/browser.rs:266-274); the height and width go through Rust's
truncating as-u32 cast. -/
def mkImageResult (item : Json) : ImageResult :=
  { title := (asStr (jIndex item "title")).getD ""
    image := (asStr (jIndex item "image")).getD ""
    thumbnail := (asStr (jIndex item "thumbnail")).getD ""
    url := (asStr (jIndex item "url")).getD ""
    height := (asU64 (jIndex item "height")).getD 0 % 2 ^ 32
    width := (asU64 (jIndex item "width")).getD 0 % 2 ^ 32
    source := (asStr (jIndex item "source")).getD "" }

/-- The chrono collaborator as the code uses it: now is the current time
rendered by to_rfc3339, and fromTimestamp is timestamp_opt(ts, 0).single()
rendered by to_rfc3339 (absent when ts is outside chrono's range). -/
structure Chrono where
  now : String
  fromTimestamp : Int → Option String

/-- Embeds the NewsResult record (src/response.rs). -/
structure NewsResult where
  date : String
  title : String
  body : String
  url : String
  image : Option String
  source : String
deriving DecidableEq, Repr

/-- Embeds the news-item normalization in Browser::news
(src/browser.rs:354-375). -/
def mkNewsResult (ch : Chrono) (item : Json) : NewsResult :=
  { date := ((asI64 (jIndex item "date")).map
      (fun ts => (ch.fromTimestamp ts).getD ch.now)).getD ch.now
    title := (asStr (jIndex item "title")).getD ""
    body := (asStr (jIndex item "excerpt")).getD ""
    url := (asStr (jIndex item "url")).getD ""
    image := asStr (jIndex item "image")
    source := (asStr (jIndex item "source")).getD "" }

/-! ## Lite-search normalizer (Browser::lite_search, src/browser.rs:153-203)

The HTML5 parsing performed by scraper's Html::parse_document is the
external collaborator; the normalizer below runs on the parsed node tree.
The three selectors the code compiles are fixed ("table tr", "a",
"td.result-snippet"), so they are embedded directly as traversals. -/

/-- A parsed HTML node: an element with tag name, attributes, classes and
children, or a text node. -/
inductive Node
  | text (s : String)
  | elem (tag : String) (attrs : List (String × String)) (classes : List String)
      (children : List Node)

mutual

/-- Concatenated text of all text nodes below a node, in document order
(ElementRef::text().collect::<String>()). -/
def textContent : Node → String
  | Node.text s => s
  | Node.elem _ _ _ children => textContentList children

/-- Concatenated text of a forest, in order. -/
def textContentList : List Node → String
  | [] => ""
  | n :: ns => textContent n ++ textContentList ns

end

mutual

/-- Element descendants of a node in document (preorder) order, the node
itself excluded — the nodes ElementRef::select iterates over. -/
def descElems : Node → List Node
  | Node.text _ => []
  | Node.elem _ _ _ children => descElemsList children

/-- Element descendants of a forest: each element root followed by its own
descendants, in order. -/
def descElemsList : List Node → List Node
  | [] => []
  | n :: ns =>
    (match n with
     | Node.text _ => []
     | Node.elem _ _ _ _ => [n]) ++ descElems n ++ descElemsList ns

end

mutual

/-- Embeds the selector "table tr": tr elements with a table ancestor, in
document order.  The flag says whether an enclosing table has been seen. -/
def collectTrs (inTable : Bool) : Node → List Node
  | Node.text _ => []
  | Node.elem tag attrs classes children =>
    (if tag == "tr" && inTable then [Node.elem tag attrs classes children] else [])
      ++ collectTrsList (inTable || tag == "table") children

/-- Row collection over a forest. -/
def collectTrsList (inTable : Bool) : List Node → List Node
  | [] => []
  | n :: ns => collectTrs inTable n ++ collectTrsList inTable ns

end

/-- The rows doc.select("table tr") yields on the parsed document. -/
def tableRows (doc : Node) : List Node := collectTrs false doc

/-- Tests the tag name of a node. -/
def isTag (t : String) : Node → Bool
  | Node.text _ => false
  | Node.elem tag _ _ _ => tag == t

/-- Tests whether an element bears a class. -/
def hasClass (cls : String) : Node → Bool
  | Node.text _ => false
  | Node.elem _ _ classes _ => classes.contains cls

/-- An element's attribute value (Element::attr). -/
def attrOf (n : Node) (key : String) : Option String :=
  match n with
  | Node.text _ => none
  | Node.elem _ attrs _ _ => (attrs.find? (fun a => a.1 == key)).map (fun a => a.2)

/-- The first anchor descendant of a row: tr.select(&a_sel).next(). -/
def firstAnchor (tr : Node) : Option Node :=
  (descElems tr).find? (isTag "a")

/-- The first td.result-snippet descendant of a row:
tr.select(&snippet_sel).next(). -/
def firstSnippetCell (tr : Node) : Option Node :=
  (descElems tr).find? (fun n => isTag "td" n && hasClass "result-snippet" n)

/-- Embeds the LiteSearchResult record (src/response.rs). -/
structure LiteSearchResult where
  title : String
  url : String
  snippet : String
deriving DecidableEq, Repr

/-- Embeds the per-row body of the scraping loop (src/browser.rs:180-199):
the first anchor's text and href attribute, and the text of the first
snippet cell (empty when absent); none when the row pushes nothing —
no anchor at all, or a first anchor without an href attribute. -/
def liteOfRow (tr : Node) : Option LiteSearchResult :=
  match firstAnchor tr with
  | none => none
  | some a =>
    let title := textContent a
    match attrOf a "href" with
    | none => none
    | some href =>
      let snippet := ((firstSnippetCell tr).map textContent).getD ""
      some { title := title, url := href, snippet := snippet }

/-- Embeds the scraping loop with its in-loop limit break. -/
def liteLoop (limit : Option Nat) (acc : List LiteSearchResult) :
    List Node → List LiteSearchResult
  | [] => acc
  | tr :: rest =>
    match liteOfRow tr with
    | none => liteLoop limit acc rest
    | some r =>
      let acc2 := acc ++ [r]
      if reachedLimit limit acc2.length then acc2 else liteLoop limit acc2 rest

/-- Embeds Browser::lite_search on an already-parsed document. -/
def lite_search (limit : Option Nat) (doc : Node) : List LiteSearchResult :=
  liteLoop limit [] (tableRows doc)

/-! ## Presentation layer (src/colors.rs, src/topic.rs, src/response.rs,
and the print functions of src/browser.rs:459-591)

The print functions return the printed lines in order instead of writing
them to stdout. -/

/-- Embeds the AnsiColor enumeration (src/colors.rs), restricted to nothing:
all variants are carried over. -/
inductive AnsiColor
  | Cyan | Blue | Yellow | Red | Green | Magenta | Black | White
  | BrightRed | BrightGreen | BrightYellow | BrightBlue | BrightMagenta
  | BrightCyan | DarkGray | LightGray | Olive | Maroon | Navy | Teal
  | Aqua | Purple | Silver | DarkRed | Lime | Brown | Salmon | SkyBlue | Gold
deriving DecidableEq, Repr

/-- Embeds AnsiColor::escape_code (src/colors.rs). -/
def AnsiColor.escape_code : AnsiColor → String
  | AnsiColor.Cyan => "\u001B[36m"
  | AnsiColor.Blue => "\u001B[34m"
  | AnsiColor.Yellow => "\u001B[33m"
  | AnsiColor.Red => "\u001B[31m"
  | AnsiColor.Green => "\u001B[32m"
  | AnsiColor.Magenta => "\u001B[35m"
  | AnsiColor.Black => "\u001B[30m"
  | AnsiColor.White => "\u001B[37m"
  | AnsiColor.BrightRed => "\u001B[91m"
  | AnsiColor.BrightGreen => "\u001B[92m"
  | AnsiColor.BrightYellow => "\u001B[93m"
  | AnsiColor.BrightBlue => "\u001B[94m"
  | AnsiColor.BrightMagenta => "\u001B[95m"
  | AnsiColor.BrightCyan => "\u001B[96m"
  | AnsiColor.DarkGray => "\u001B[90m"
  | AnsiColor.LightGray => "\u001B[37;1m"
  | AnsiColor.Olive => "\u001B[33;1m"
  | AnsiColor.Maroon => "\u001B[31;1m"
  | AnsiColor.Navy => "\u001B[34;1m"
  | AnsiColor.Teal => "\u001B[36;1m"
  | AnsiColor.Aqua => "\u001B[96;1m"
  | AnsiColor.Purple => "\u001B[35;1m"
  | AnsiColor.Silver => "\u001B[37;2m"
  | AnsiColor.DarkRed => "\u001B[31;2m"
  | AnsiColor.Lime => "\u001B[32;2m"
  | AnsiColor.Brown => "\u001B[33;2m"
  | AnsiColor.Salmon => "\u001B[91;1m"
  | AnsiColor.SkyBlue => "\u001B[94;1m"
  | AnsiColor.Gold => "\u001B[33;3m"

/-- Embeds the AnsiStyle record (src/colors.rs). -/
structure AnsiStyle where
  bold : Bool
  color : Option AnsiColor
deriving DecidableEq, Repr

/-- Embeds AnsiStyle::escape_code (src/colors.rs). -/
def AnsiStyle.escape_code (s : AnsiStyle) : String :=
  (if s.bold then "\u001B[1m" else "")
    ++ (match s.color with
        | some c => c.escape_code
        | none => "")

/-- Embeds AnsiStyle::reset_code (src/colors.rs). -/
def AnsiStyle.reset_code : String := "\u001B[0m"

/-- Embeds the Icon record (src/icon.rs); height and width arrive as raw
JSON values. -/
structure Icon where
  height : Json
  url : String
  width : Json

/-- Embeds the Topic record (src/topic.rs). -/
structure Topic where
  first_url : Option String
  icon : Option Icon
  result : Option String
  text : Option String
  url : Option String

/-- Embeds the Response record (src/response.rs); field names follow the
Rust struct, with the loosely typed fields as raw JSON values. -/
structure Response where
  abstract_full : Option String
  abstract_source : Option String
  abstract_text : Option String
  abstract_url : Option String
  answer : Option String
  answer_type : Option String
  definition : Option String
  definition_source : Option String
  definition_url : Option String
  entity : Option String
  heading : Option String
  image : Option String
  image_height : Json
  image_is_logo : Json
  image_width : Json
  info_box : Option Json
  redirect : Option String
  related_topics : List Topic
  generic_results : List Json
  type_str : String
  example_query : Option String
  created_date : Option String

/-- Embeds Browser::print_related_topic (src/browser.rs:489-522), returning
the printed lines: nothing when the text or the first URL is absent,
otherwise the numbered text line, the URL line, an image line when an icon
with a nonempty URL is present, and the separator line. -/
def print_related_topic (index : Nat) (topic : Topic) : List String :=
  let style : AnsiStyle := { bold := false, color := some AnsiColor.BrightGreen }
  let esc := style.escape_code
  match topic.text with
  | none => []
  | some text =>
    match topic.first_url with
    | none => []
    | some first_url =>
      [s!"{index}. {text} {esc}", s!"URL: {first_url}{esc}"]
        ++ (match topic.icon with
            | some icon =>
              if icon.url ≠ "" then
                (let style2 : AnsiStyle := { bold := false, color := some AnsiColor.BrightBlue }
                 let esc2 := style2.escape_code
                 let full_url := "https://duckduckgo.com" ++ icon.url
                 [s!"Image URL: {full_url}{esc2}"])
              else []
            | none => [])
        ++ ["--------------------------------------------"]

/-- Embeds Browser::print_results_list (src/browser.rs:459-482): the styled
heading when present, then the topics numbered from 1, the enumeration
capped at the limit (or the topic count when no limit is given). -/
def print_results_list (api_response : Response) (limit : Option Nat) : List String :=
  (match api_response.heading with
   | some heading =>
     let style : AnsiStyle := { bold := true, color := some AnsiColor.Gold }
     [style.escape_code ++ heading ++ AnsiStyle.reset_code]
   | none => [])
    ++ (let topics := api_response.related_topics
        ((topics.enum.take (limit.getD topics.length)).map
          (fun it => print_related_topic (it.1 + 1) it.2)).flatten)

/-- Embeds Browser::print_results_detailed (src/browser.rs:529-591): the
heading, the abstract text/source/URL and the origin-resolved top-level
image, each conditionally on presence, then the capped topic list. -/
def print_results_detailed (api_response : Response) (limit : Option Nat) : List String :=
  (match api_response.heading with
   | some heading =>
     let style : AnsiStyle := { bold := true, color := none }
     [style.escape_code ++ heading ++ AnsiStyle.reset_code]
   | none => [])
    ++ (match api_response.abstract_text with
        | some abstract_text =>
          let style : AnsiStyle := { bold := false, color := some AnsiColor.LightGray }
          let esc := style.escape_code
          [s!"Abstract: {abstract_text}{esc}"]
        | none => [])
    ++ (match api_response.abstract_source with
        | some abstract_source =>
          let style : AnsiStyle := { bold := false, color := some AnsiColor.Purple }
          let esc := style.escape_code
          [s!"Abstract Source: {abstract_source}{esc}"]
        | none => [])
    ++ (match api_response.abstract_url with
        | some abstract_url =>
          let style : AnsiStyle := { bold := false, color := some AnsiColor.Silver }
          let esc := style.escape_code
          [s!"Abstract URL: {abstract_url}{esc}"]
        | none => [])
    ++ (match api_response.image with
        | some image =>
          let style : AnsiStyle := { bold := false, color := some AnsiColor.SkyBlue }
          let esc := style.escape_code
          if image ≠ "" then
            (let full_url := "https://duckduckgo.com" ++ image
             [s!"Image URL: {full_url}{esc}"])
          else []
        | none => [])
    ++ (let topics := api_response.related_topics
        ((topics.enum.take (limit.getD topics.length)).map
          (fun it => print_related_topic (it.1 + 1) it.2)).flatten)

/-! ## Shared fixtures and helper lemmas -/

/-- Mock upstream of three pages with three records each; pages one and two
carry a next field, page three does not. -/
def mockPages : List (Page Nat) :=
  [⟨some [1, 2, 3], some "x?s=c1"⟩,
   ⟨some [4, 5, 6], some "x?s=c2"⟩,
   ⟨some [7, 8, 9], none⟩]

theorem reachedLimit_false_mono {limit : Option Nat} {n m : Nat}
    (h : reachedLimit limit n = false) (hm : m ≤ n) : reachedLimit limit m = false := by
  cases limit with
  | none => rfl
  | some l =>
    simp only [reachedLimit, decide_eq_false_iff_not, not_le] at h ⊢
    omega

theorem stepItems_nohit {α : Type} (limit : Option Nat) (acc items : List α)
    (h : reachedLimit limit (acc.length + items.length) = false) :
    stepItems limit acc items = (acc ++ items, false) := by
  induction items generalizing acc with
  | nil => simp [stepItems]
  | cons x xs ih =>
    have h1 : reachedLimit limit (acc ++ [x]).length = false := by
      refine reachedLimit_false_mono h ?_
      simp only [List.length_append, List.length_cons, List.length_nil]
      omega
    have h2 : reachedLimit limit ((acc ++ [x]).length + xs.length) = false := by
      refine reachedLimit_false_mono h ?_
      simp only [List.length_append, List.length_cons, List.length_nil]
      omega
    simp only [stepItems, h1, Bool.false_eq_true, if_false]
    rw [ih (acc ++ [x]) h2]
    simp

theorem stepItems_hit {α : Type} (l : Nat) (acc items : List α)
    (hacc : acc.length < l) (hr : l ≤ acc.length + items.length) :
    stepItems (some l) acc items = ((acc ++ items).take l, true) := by
  induction items generalizing acc with
  | nil => simp at hr; omega
  | cons x xs ih =>
    simp only [List.length_cons] at hr
    by_cases hl : l ≤ (acc ++ [x]).length
    · simp only [List.length_append, List.length_cons, List.length_nil] at hl
      have h1 : reachedLimit (some l) (acc ++ [x]).length = true := by
        simp only [reachedLimit, decide_eq_true_eq, List.length_append,
          List.length_cons, List.length_nil]
        omega
      have hlen : l = acc.length + 1 := by omega
      simp only [stepItems, h1, if_true]
      subst hlen
      have ht : (acc ++ x :: xs).take (acc.length + 1) = acc ++ (x :: xs).take 1 :=
        List.take_append 1
      rw [ht]
      simp
    · simp only [List.length_append, List.length_cons, List.length_nil] at hl
      have h1 : reachedLimit (some l) (acc ++ [x]).length = false := by
        simp only [reachedLimit, decide_eq_false_iff_not, not_le, List.length_append,
          List.length_cons, List.length_nil]
        omega
      have hacc2 : (acc ++ [x]).length < l := by
        simp only [List.length_append, List.length_cons, List.length_nil]
        omega
      have hr2 : l ≤ (acc ++ [x]).length + xs.length := by
        simp only [List.length_append, List.length_cons, List.length_nil]
        omega
      simp only [stepItems, h1, Bool.false_eq_true, if_false]
      rw [ih (acc ++ [x]) hacc2 hr2]
      simp

theorem joinUpTo_zero {α : Type} (pages : List (Page α)) : joinUpTo pages 0 = [] := rfl

theorem joinUpTo_succ_cons {α : Type} (p : Page α) (rest : List (Page α)) (k : Nat) :
    joinUpTo (p :: rest) (k + 1) = pageItems p ++ joinUpTo rest k := by
  simp [joinUpTo]

theorem joinAll_cons {α : Type} (p : Page α) (rest : List (Page α)) :
    joinAll (p :: rest) = pageItems p ++ joinAll rest := by
  simp [joinAll]

theorem splitSEq_eq (s : List Char) :
    splitSEq s
      = beforeFirstSEq s
          :: (match afterFirstSEq s with
              | none => []
              | some r => splitSEq r) := by
  induction s with
  | nil => rfl
  | cons c tail ih =>
    cases tail with
    | nil => rfl
    | cons d rest =>
      by_cases h : c = 's' ∧ d = '='
      · simp only [splitSEq, afterFirstSEq, beforeFirstSEq, if_pos h]
      · simp only [splitSEq, afterFirstSEq, beforeFirstSEq, if_neg h]
        rw [ih]

theorem vqdScan_none_of_no_lit (s : List Char) (h : hasVqdEq s = false) :
    vqdScan s = none := by
  induction s with
  | nil => rfl
  | cons c rest ih =>
    by_cases hc : (c :: rest).take 4 = vqdLit
    · rw [hasVqdEq, if_pos hc] at h
      exact absurd h (by simp)
    · rw [hasVqdEq, if_neg hc] at h
      rw [vqdScan, if_neg hc]
      exact ih h

theorem sParams_zero {α : Type} (pages : List (Page α)) : sParams pages 0 = [] := rfl

theorem sParams_succ_cons {α : Type} {p : Page α} {nxt : String}
    (rest : List (Page α)) (k : Nat) (hn : p.next = some nxt) :
    sParams (p :: rest) (k + 1) = ("s", cursorOfNext nxt) :: sParams rest k := by
  simp [sParams, hn]

/-! ## Claim C1 -/

/-- C1 counterexample: the instant-answer path (Browser::browse) issues its
GET with no explicitly attached headers at all — in particular without the
Referer header — so the claim that every outbound call of all four backends
carries the four fixed headers is false at the concrete path ?q=Rust. -/
theorem c1_counterexample :
    ("Referer", "https://duckduckgo.com/") ∉ (browseRequest "?q=Rust").headers
      ∧ (browseRequest "?q=Rust").headers = [] := by
  constructor
  · simp [browseRequest]
  · rfl

/-- C1 (amended): every request built through Browser::request — the token
fetch, the lite search, and every image and news page request — carries
exactly the four fixed headers (User-Agent, Accept: application/json,
Referer: the site's own origin, Accept-Language); the instant-answer browse
path, by contrast, attaches no headers beyond transport defaults. -/
theorem c1_theorem :
    ∀ (method url user_agent query region path : String)
      (params : List (String × String)),
      (request method url user_agent params).headers = fixedHeaders user_agent
      ∧ (vqdRequest query user_agent).headers = fixedHeaders user_agent
      ∧ (liteRequest query region user_agent).headers = fixedHeaders user_agent
      ∧ (imagePageRequest user_agent params).headers = fixedHeaders user_agent
      ∧ (newsPageRequest user_agent params).headers = fixedHeaders user_agent
      ∧ (browseRequest path).headers = [] := by
  intro method url user_agent query region path params
  exact ⟨rfl, rfl, rfl, rfl, rfl, rfl⟩

/-! ## Claim C2 -/

/-- C2 counterexample: on a body containing vqd=-12345 the extractor
returns "12345", not "-12345" as the claim states — the pattern's optional
wildcard greedily consumes the leading hyphen, leaving only the digit run
in the capture. -/
theorem c2_counterexample :
    get_vqd "vqd=-12345" = Except.ok "12345"
      ∧ get_vqd "vqd=-12345" ≠ Except.ok "-12345" := by
  constructor
  · rfl
  · decide

/-- C2 (amended): a body containing vqd= followed by a single-quoted digit
run 1234567890 yields the token "1234567890"; a body containing vqd=-12345
yields "12345" — the leading hyphen is consumed by the pattern's optional
wildcard and is not part of the returned token; and a body with no vqd=
substring fails with the token-missing error rather than returning a
value. -/
theorem c2_theorem :
    get_vqd ("vqd=" ++ squote ++ "1234567890" ++ squote) = Except.ok "1234567890"
      ∧ get_vqd "vqd=-12345" = Except.ok "12345"
      ∧ ∀ body : String, hasVqdEq body.toList = false →
          get_vqd body = Except.error "Missing vqd in response" := by
  refine ⟨by decide, rfl, ?_⟩
  intro body h
  unfold get_vqd
  rw [vqdScan_none_of_no_lit body.toList h]

/-- C2 witness: the token-missing branch of the amended claim at the
concrete body "hello". -/
theorem c2_witness :
    hasVqdEq ("hello").toList = false
      ∧ get_vqd "hello" = Except.error "Missing vqd in response" :=
  ⟨by decide, c2_theorem.2.2 "hello" (by decide)⟩

/-! ## Claim C3 -/

/-- C3 counterexample: for a next value as=1&s=2 the code's cursor is "1&"
— the piece after the FIRST occurrence of s= up to the following occurrence
— while the claim's rule (substring after the LAST occurrence of s= to the
end of the value) gives "2". -/
theorem c3_counterexample :
    cursorOfNext "as=1&s=2" = "1&"
      ∧ cursorSpecLastSEq "as=1&s=2" = "2"
      ∧ cursorOfNext "as=1&s=2" ≠ cursorSpecLastSEq "as=1&s=2" := by
  refine ⟨rfl, rfl, by decide⟩

/-- C3 (amended): the cursor used for the next page request is the piece of
the next field's value strictly between the first occurrence of s= and the
following occurrence (extending to the end of the value when there is no
second occurrence), and the empty string when s= does not occur at all;
when the next field is absent the pagination loop stops normally
(Halt.noNext) without an error. -/
theorem c3_theorem :
    (∀ next : String,
      cursorOfNext next
        = String.mk (match afterFirstSEq next.toList with
                     | none => []
                     | some r => beforeFirstSEq r))
      ∧ ∀ (limit : Option Nat) (params : List (String × String))
          (acc items : List Nat) (fetched : Nat)
          (trace : List (List (String × String)))
          (rest : List (Except String (Page Nat))),
          reachedLimit limit (acc.length + items.length) = false →
          runPages limit params acc fetched trace (Except.ok ⟨some items, none⟩ :: rest)
            = Except.ok ⟨acc ++ items, params, trace ++ [params], fetched + 1, Halt.noNext⟩ := by
  constructor
  · intro next
    unfold cursorOfNext
    rw [splitSEq_eq next.toList]
    cases h : afterFirstSEq next.toList with
    | none => simp
    | some r => simp [splitSEq_eq r]
  · intro limit params acc items fetched trace rest h
    simp only [runPages]
    rw [show (Page.mk (some items) (none : Option String)).results.getD [] = items from rfl]
    rw [stepItems_nohit limit acc items h]

/-- C3 witness: the loop-termination branch of the amended claim at a
concrete one-page run. -/
theorem c3_witness :
    runPages none [("q", "r")] ([3] : List Nat) 7 [[("q", "r")]]
        (Except.ok ⟨some [4, 5], none⟩ :: [Except.error "unreached"])
      = Except.ok ⟨[3, 4, 5], [("q", "r")], [[("q", "r")], [("q", "r")]], 8, Halt.noNext⟩ :=
  c3_theorem.2 none [("q", "r")] [3] [4, 5] 7 [[("q", "r")]] [Except.error "unreached"] (by decide)

/-! ## Claim C4 -/

/-- C4 counterexample: with limit = 0 the loop's guarantee fails — the
accumulator (length 0) has already reached the limit before anything is
fetched, yet the code still fetches the first page and returns one record,
because the stop test runs only after a record has been pushed. -/
theorem c4_counterexample :
    runPages (some 0) [("q", "r")] ([] : List Nat) 0 []
        [Except.ok ⟨some [1, 2, 3], none⟩]
      = Except.ok ⟨[1], [("q", "r")], [[("q", "r")]], 1, Halt.limitHit⟩ := by
  decide

/-- C4 (amended): for every limit l ≥ 1, the pagination loop appends
records page by page and returns the moment the accumulator reaches l, even
mid-page, fetching no page it does not need: when the cumulative record
count first reaches l on page k+1 (pages being 1-indexed here via k+1) and
the earlier pages all carry a next field, the run issues exactly k+1 page
requests, stops with Halt.limitHit, and returns the first l records of the
concatenation of the fetched pages. -/
theorem c4_theorem {α : Type} :
    ∀ (l : Nat) (pages : List (Page α)) (k : Nat)
      (params : List (String × String)) (acc : List α) (fetched : Nat)
      (trace : List (List (String × String))),
      1 ≤ l →
      acc.length + (joinUpTo pages k).length < l →
      l ≤ acc.length + (joinUpTo pages (k + 1)).length →
      (∀ j p, j < k → pages.get? j = some p → p.next.isSome = true) →
      k + 1 ≤ pages.length →
      ∃ r, runPages (some l) params acc fetched trace (pages.map Except.ok) = Except.ok r
        ∧ r.results = (acc ++ joinUpTo pages (k + 1)).take l
        ∧ r.fetched = fetched + (k + 1)
        ∧ r.halt = Halt.limitHit := by
  intro l pages k
  induction k generalizing pages with
  | zero =>
    intro params acc fetched trace hl hbefore hreach hnext hk
    cases pages with
    | nil => simp at hk
    | cons p rest =>
      rw [joinUpTo_zero] at hbefore
      rw [joinUpTo_succ_cons] at hreach
      simp only [List.length_nil, Nat.add_zero] at hbefore
      simp only [List.length_append, joinUpTo_zero, List.length_nil, Nat.add_zero] at hreach
      refine ⟨⟨(acc ++ pageItems p).take l, params, trace ++ [params], fetched + 1,
        Halt.limitHit⟩, ?_, ?_, rfl, rfl⟩
      · simp only [List.map_cons, runPages]
        rw [show (p.results.getD [] : List α) = pageItems p from rfl]
        rw [stepItems_hit l acc (pageItems p) hbefore hreach]
      · rw [joinUpTo_succ_cons]
        simp [joinUpTo_zero]
  | succ k ih =>
    intro params acc fetched trace hl hbefore hreach hnext hk
    cases pages with
    | nil => simp at hk
    | cons p rest =>
      rw [joinUpTo_succ_cons] at hbefore
      rw [joinUpTo_succ_cons] at hreach
      simp only [List.length_append] at hbefore hreach
      have hstep : reachedLimit (some l) (acc.length + (pageItems p).length) = false := by
        simp only [reachedLimit, decide_eq_false_iff_not, not_le]
        omega
      have hstep2 : reachedLimit (some l) ((acc ++ pageItems p).length) = false := by
        simpa using hstep
      obtain ⟨nxt, hn⟩ : ∃ nxt, p.next = some nxt := by
        have := hnext 0 p (by omega) rfl
        cases hpn : p.next with
        | none => rw [hpn] at this; simp at this
        | some nxt => exact ⟨nxt, rfl⟩
      obtain ⟨r, hr, h1, h2, h3⟩ :=
        ih rest (params ++ [("s", cursorOfNext nxt)]) (acc ++ pageItems p)
          (fetched + 1) (trace ++ [params]) hl
          (by simp only [List.length_append]; omega)
          (by simp only [List.length_append]; omega)
          (by intro j q hj hq
              exact hnext (j + 1) q (by omega) (by simpa using hq))
          (by simpa using hk)
      refine ⟨r, ?_, ?_, ?_, h3⟩
      · simp only [List.map_cons, runPages]
        rw [show (p.results.getD [] : List α) = pageItems p from rfl]
        rw [stepItems_nohit (some l) acc (pageItems p) hstep]
        simp only [hn]
        exact hr
      · rw [h1, joinUpTo_succ_cons]
        simp [List.append_assoc]
      · omega

/-- C4 witness: against the three-page mock serving three records per page,
a run with limit 4 returns exactly the records 1,2,3,4 and issues only two
page requests — no third page request occurs. -/
theorem c4_witness :
    (runPages (some 4) [("q", "r")] ([] : List Nat) 0 []
        (mockPages.map Except.ok)).map PagResult.results = Except.ok [1, 2, 3, 4]
      ∧ (runPages (some 4) [("q", "r")] ([] : List Nat) 0 []
          (mockPages.map Except.ok)).map PagResult.fetched = Except.ok 2 := by
  obtain ⟨r, hr, h1, h2, h3⟩ :=
    c4_theorem 4 mockPages 1 [("q", "r")] [] 0 []
      (by decide) (by decide) (by decide)
      (by
        intro j p hj hp
        have hj0 : j = 0 := by omega
        subst hj0
        simp only [mockPages, List.get?] at hp
        cases hp
        rfl)
      (by decide)
  constructor
  · rw [hr]
    simp only [Except.map]
    rw [h1]
    decide
  · rw [hr]
    simp only [Except.map]
    rw [h2]

/-! ## Claim C5 -/

/-- C5: with no limit, on any finite page sequence whose final page omits
the next field while every earlier page carries one, the loop issues
exactly one request per page, stops normally (Halt.noNext), and returns the
concatenation of all pages' records in page order, appended after the
accumulator. -/
theorem c5_theorem {α : Type} :
    ∀ (pages : List (Page α)) (params : List (String × String)) (acc : List α)
      (fetched : Nat) (trace : List (List (String × String))),
      pages ≠ [] →
      (∀ j p, j + 1 < pages.length → pages.get? j = some p → p.next.isSome = true) →
      (∀ p, pages.get? (pages.length - 1) = some p → p.next = none) →
      ∃ r, runPages none params acc fetched trace (pages.map Except.ok) = Except.ok r
        ∧ r.results = acc ++ joinAll pages
        ∧ r.fetched = fetched + pages.length
        ∧ r.halt = Halt.noNext := by
  intro pages
  induction pages with
  | nil => intro params acc fetched trace hne; exact absurd rfl hne
  | cons p rest ih =>
    intro params acc fetched trace hne hnext hlast
    cases rest with
    | nil =>
      have hn : p.next = none := hlast p rfl
      refine ⟨⟨acc ++ pageItems p, params, trace ++ [params], fetched + 1,
        Halt.noNext⟩, ?_, ?_, rfl, rfl⟩
      · simp only [List.map_cons, List.map_nil, runPages]
        rw [show (p.results.getD [] : List α) = pageItems p from rfl]
        rw [stepItems_nohit none acc (pageItems p) rfl]
        simp only [hn]
      · simp [joinAll_cons, joinAll]
    | cons q rest2 =>
      have hiss := hnext 0 p (by simp) rfl
      obtain ⟨nxt, hn⟩ : ∃ nxt, p.next = some nxt := by
        cases hpn : p.next with
        | none => rw [hpn] at hiss; simp at hiss
        | some nxt => exact ⟨nxt, rfl⟩
      obtain ⟨r, hr, h1, h2, h3⟩ :=
        ih (params ++ [("s", cursorOfNext nxt)]) (acc ++ pageItems p)
          (fetched + 1) (trace ++ [params])
          (by simp)
          (by intro j u hj hu
              exact hnext (j + 1) u (by simpa using hj) (by simpa using hu))
          (by intro u hu
              refine hlast u ?_
              simpa using hu)
      refine ⟨r, ?_, ?_, ?_, h3⟩
      · simp only [List.map_cons, runPages]
        rw [show (p.results.getD [] : List α) = pageItems p from rfl]
        rw [stepItems_nohit none acc (pageItems p) rfl]
        simp only [hn]
        exact hr
      · rw [h1]
        simp [joinAll_cons, List.append_assoc]
      · rw [h2]
        simp
        omega

/-- C5 witness: against the three-page mock (next on pages one and two,
none on page three), a run with no limit returns all nine records in page
order after exactly three page requests. -/
theorem c5_witness :
    (runPages none [("q", "r")] ([] : List Nat) 0 []
        (mockPages.map Except.ok)).map PagResult.results
      = Except.ok [1, 2, 3, 4, 5, 6, 7, 8, 9]
      ∧ (runPages none [("q", "r")] ([] : List Nat) 0 []
          (mockPages.map Except.ok)).map PagResult.fetched = Except.ok 3
      ∧ (runPages none [("q", "r")] ([] : List Nat) 0 []
          (mockPages.map Except.ok)).map PagResult.halt = Except.ok Halt.noNext := by
  obtain ⟨r, hr, h1, h2, h3⟩ :=
    c5_theorem mockPages [("q", "r")] [] 0 []
      (by decide)
      (by
        intro j p hj hp
        simp only [mockPages, List.length_cons, List.length_nil] at hj
        rcases j with _ | _ | j
        · simp only [mockPages, List.get?] at hp
          cases hp
          rfl
        · simp only [mockPages, List.get?] at hp
          cases hp
          rfl
        · omega)
      (by
        intro p hp
        simp only [mockPages, List.get?] at hp
        cases hp
        rfl)
  refine ⟨?_, ?_, ?_⟩
  · rw [hr]
    simp only [Except.map]
    rw [h1]
    decide
  · rw [hr]
    simp only [Except.map]
    rw [h2]
    decide
  · rw [hr]
    simp only [Except.map]
    rw [h3]

/-! ## Claim C6 -/

/-- C6: pagination is all-or-nothing — when the loop reaches a page whose
fetch or parse fails, the whole run returns that error and none of the
records accumulated from the earlier pages is returned: the hypotheses say
the earlier pages all carry a next field and the limit is not reached on
them, so the loop does reach the failing page. -/
theorem c6_theorem {α : Type} :
    ∀ (okPages : List (Page α)) (e : String)
      (tailPages : List (Except String (Page α))) (limit : Option Nat)
      (params : List (String × String)) (acc : List α) (fetched : Nat)
      (trace : List (List (String × String))),
      (∀ p, p ∈ okPages → p.next.isSome = true) →
      reachedLimit limit (acc.length + (joinAll okPages).length) = false →
      runPages limit params acc fetched trace
        (okPages.map Except.ok ++ Except.error e :: tailPages) = Except.error e := by
  intro okPages
  induction okPages with
  | nil =>
    intro e tailPages limit params acc fetched trace _ _
    rfl
  | cons p ps ih =>
    intro e tailPages limit params acc fetched trace hmem hnohit
    rw [joinAll_cons] at hnohit
    simp only [List.length_append] at hnohit
    have hstep : reachedLimit limit (acc.length + (pageItems p).length) = false :=
      reachedLimit_false_mono hnohit (by omega)
    have hiss := hmem p (List.mem_cons_self p ps)
    obtain ⟨nxt, hn⟩ : ∃ nxt, p.next = some nxt := by
      cases hpn : p.next with
      | none => rw [hpn] at hiss; simp at hiss
      | some nxt => exact ⟨nxt, rfl⟩
    simp only [List.map_cons, List.cons_append, runPages]
    rw [show (p.results.getD [] : List α) = pageItems p from rfl]
    rw [stepItems_nohit limit acc (pageItems p) hstep]
    simp only [hn]
    refine ih e tailPages limit (params ++ [("s", cursorOfNext nxt)])
      (acc ++ pageItems p) (fetched + 1) (trace ++ [params])
      (by intro q hq; exact hmem q (List.mem_cons_of_mem p hq))
      (by
        refine reachedLimit_false_mono hnohit ?_
        simp only [List.length_append]
        omega)

/-- C6 witness: two successful pages followed by a failing third page — the
run returns the error and discards the six already-accumulated records. -/
theorem c6_witness :
    runPages none [("q", "r")] ([] : List Nat) 0 []
        ((mockPages.take 2).map Except.ok ++ Except.error "boom" :: [])
      = Except.error "boom" :=
  c6_theorem (mockPages.take 2) "boom" [] none [("q", "r")] [] 0 []
    (by decide) (by decide)

/-! ## Claim C7 -/

/-- C7: every field of an image or news item is read defensively — when the
accessor rejects the raw value (key missing, or the value of the wrong
type), the normalizer substitutes the documented default instead of
failing: the empty string for the text fields, zero for height and width,
and the current time for the news date; the normalizers are total
functions, so no item ever aborts the page. -/
theorem c7_theorem :
    ∀ (item : Json) (ch : Chrono),
      (asStr (jIndex item "title") = none → (mkImageResult item).title = "")
      ∧ (asStr (jIndex item "image") = none → (mkImageResult item).image = "")
      ∧ (asStr (jIndex item "thumbnail") = none → (mkImageResult item).thumbnail = "")
      ∧ (asStr (jIndex item "url") = none → (mkImageResult item).url = "")
      ∧ (asStr (jIndex item "source") = none → (mkImageResult item).source = "")
      ∧ (asU64 (jIndex item "height") = none → (mkImageResult item).height = 0)
      ∧ (asU64 (jIndex item "width") = none → (mkImageResult item).width = 0)
      ∧ (asStr (jIndex item "title") = none → (mkNewsResult ch item).title = "")
      ∧ (asStr (jIndex item "excerpt") = none → (mkNewsResult ch item).body = "")
      ∧ (asStr (jIndex item "url") = none → (mkNewsResult ch item).url = "")
      ∧ (asStr (jIndex item "source") = none → (mkNewsResult ch item).source = "")
      ∧ (asI64 (jIndex item "date") = none → (mkNewsResult ch item).date = ch.now) := by
  intro item ch
  refine ⟨fun h => ?_, fun h => ?_, fun h => ?_, fun h => ?_, fun h => ?_, fun h => ?_,
    fun h => ?_, fun h => ?_, fun h => ?_, fun h => ?_, fun h => ?_, fun h => ?_⟩
  all_goals simp [mkImageResult, mkNewsResult, h]

/-- Fixture for C7: a JSON image/news item carrying only a title — every
other field, in particular height and date, is missing. -/
def itemTitleOnly : Json := Json.obj [("title", Json.str "t")]

/-- Fixture for C7: a concrete clock collaborator. -/
def chronoFixture : Chrono :=
  { now := "2026-10-12T00:00:00+00:00", fromTimestamp := fun _ => none }

/-- C7 witness: the item missing its height field normalizes to height 0,
and the item missing its date field normalizes to the current time. -/
theorem c7_witness :
    asU64 (jIndex itemTitleOnly "height") = none
      ∧ (mkImageResult itemTitleOnly).height = 0
      ∧ asI64 (jIndex itemTitleOnly "date") = none
      ∧ (mkNewsResult chronoFixture itemTitleOnly).date = chronoFixture.now := by
  have h := c7_theorem itemTitleOnly chronoFixture
  have hu : asU64 (jIndex itemTitleOnly "height") = none := by decide
  have hd : asI64 (jIndex itemTitleOnly "date") = none := by decide
  exact ⟨hu, h.2.2.2.2.2.1 hu, hd, h.2.2.2.2.2.2.2.2.2.2.2 hd⟩

/-! ## Claim C8 -/

/-- Fixture row: an anchor with an href and a snippet cell. -/
def rowAnchorSnippet : Node :=
  Node.elem "tr" [] []
    [Node.elem "td" [] []
      [Node.elem "a" [("href", "http://a")] [] [Node.text "Title A"]],
     Node.elem "td" [] ["result-snippet"] [Node.text "snip A"]]

/-- Fixture anchor of the anchor-only row. -/
def anchorB : Node := Node.elem "a" [("href", "http://b")] [] [Node.text "Title B"]

/-- Fixture row: an anchor with an href but no snippet cell. -/
def rowAnchorOnly : Node :=
  Node.elem "tr" [] [] [Node.elem "td" [] [] [anchorB]]

/-- Fixture row: an anchor element that carries no href attribute. -/
def rowNoHref : Node :=
  Node.elem "tr" [] [] [Node.elem "td" [] [] [Node.elem "a" [] [] [Node.text "no href"]]]

/-- Fixture document with two rows: anchor with snippet, anchor only. -/
def liteDocFixture : Node :=
  Node.elem "html" [] []
    [Node.elem "body" [] [] [Node.elem "table" [] [] [rowAnchorSnippet, rowAnchorOnly]]]

/-- Fixture document with a single row whose anchor has no href. -/
def liteDocNoHref : Node :=
  Node.elem "html" [] [] [Node.elem "table" [] [] [rowNoHref]]

/-- C8 counterexample: a document with one table row that does have an
anchor element — but whose anchor carries no href attribute — yields an
empty result list, not one result per anchor-bearing row as the claim
states: the code also requires the href. -/
theorem c8_counterexample :
    (tableRows liteDocNoHref).countP (fun tr => (firstAnchor tr).isSome) = 1
      ∧ lite_search none liteDocNoHref = [] := by
  constructor
  · rfl
  · rfl

/-- C8 (amended): with no limit set, the result list contains one
LiteSearchResult per table row whose first anchor element carries an href
attribute (title = that anchor's text, url = its href); rows without an
anchor, and rows whose first anchor lacks an href, are dropped entirely;
and a row whose anchor and href are present but that lacks a result-snippet
cell yields a result with an empty snippet string rather than an error. -/
theorem c8_theorem :
    (∀ doc : Node, lite_search none doc = (tableRows doc).filterMap liteOfRow)
      ∧ ∀ (tr a : Node) (href : String),
          firstAnchor tr = some a →
          attrOf a "href" = some href →
          firstSnippetCell tr = none →
          liteOfRow tr = some ⟨textContent a, href, ""⟩ := by
  constructor
  · intro doc
    unfold lite_search
    have hloop : ∀ (trs : List Node) (acc : List LiteSearchResult),
        liteLoop none acc trs = acc ++ trs.filterMap liteOfRow := by
      intro trs
      induction trs with
      | nil => intro acc; simp [liteLoop]
      | cons tr rest ih =>
        intro acc
        cases h : liteOfRow tr with
        | none =>
          simp only [liteLoop, h]
          rw [ih]
          simp [List.filterMap_cons, h]
        | some r =>
          simp only [liteLoop, h, reachedLimit, Bool.false_eq_true, if_false]
          rw [ih]
          simp [List.filterMap_cons, h]
    simpa using hloop (tableRows doc) []
  · intro tr a href h1 h2 h3
    simp [liteOfRow, h1, h2, h3]

/-- C8 witness: the two-row fixture — first row anchor with snippet cell,
second row anchor only — yields exactly two results, the second with an
empty snippet string. -/
theorem c8_witness :
    lite_search none liteDocFixture
      = [⟨"Title A", "http://a", "snip A"⟩, ⟨"Title B", "http://b", ""⟩]
      ∧ liteOfRow rowAnchorOnly = some ⟨"Title B", "http://b", ""⟩ := by
  have h2 := c8_theorem.2 rowAnchorOnly anchorB "http://b" rfl rfl rfl
  constructor
  · rw [c8_theorem.1 liteDocFixture]
    rfl
  · rw [h2]
    rfl

/-! ## Claim C9 -/

/-- Fixture topic whose text is present but empty, with a first URL. -/
def topicEmptyText : Topic :=
  { first_url := some "https://x", icon := none, result := none,
    text := some "", url := none }

/-- C9 counterexample: a topic whose text field is present but holds the
empty string is printed (its rendering is nonempty), so the claim that
every printed topic has a NON-EMPTY text is false: the code only tests
presence, not emptiness. -/
theorem c9_counterexample :
    print_related_topic 1 topicEmptyText ≠ []
      ∧ topicEmptyText.text = some "" := by
  constructor
  · decide
  · rfl

/-- C9 (amended): in the topic-rendering primitive shared by the list and
detailed modes, a topic is rendered if and only if both its text and its
first URL are present (the text may be the empty string); in particular a
topic with no text and no first URL is skipped silently — it produces no
output lines and no error. -/
theorem c9_theorem :
    ∀ (index : Nat) (topic : Topic),
      print_related_topic index topic = []
        ↔ (topic.text = none ∨ topic.first_url = none) := by
  intro index topic
  cases ht : topic.text with
  | none => simp [print_related_topic, ht]
  | some t =>
    cases hu : topic.first_url with
    | none => simp [print_related_topic, ht, hu]
    | some u => simp [print_related_topic, ht, hu]

/-! ## Claim C10 -/

theorem sParams_countP {α : Type} (pages : List (Page α)) (k : Nat) :
    (sParams pages k).countP (fun q => q.1 == "s") = (sParams pages k).length := by
  unfold sParams
  have hgen : ∀ L : List String,
      (L.map (fun nxt => ("s", cursorOfNext nxt))).countP (fun q => q.1 == "s")
        = (L.map (fun nxt => ("s", cursorOfNext nxt))).length := by
    intro L
    induction L with
    | nil => rfl
    | cons x xs ih => simp [List.countP_cons, ih]
  exact hgen _

theorem sParams_succ_get {α : Type} {pages : List (Page α)} {k : Nat} {p : Page α}
    {nxt : String} (hg : pages[k]? = some p) (hn : p.next = some nxt) :
    sParams pages (k + 1) = sParams pages k ++ [("s", cursorOfNext nxt)] := by
  unfold sParams
  rw [List.take_succ, hg]
  simp [List.filterMap_append, hn]

theorem sParams_succ_stuck {α : Type} {pages : List (Page α)} {k : Nat}
    (h : ∀ p, pages[k]? = some p → p.next = none) :
    sParams pages (k + 1) = sParams pages k := by
  unfold sParams
  rw [List.take_succ]
  cases hg : pages[k]? with
  | none => simp
  | some p => simp [List.filterMap_append, h p hg]

theorem runPages_trace {α : Type} :
    ∀ (pages : List (Page α)) (limit : Option Nat) (params : List (String × String))
      (acc : List α) (fetched : Nat) (t0 : List (List (String × String)))
      (r : PagResult α),
      runPages limit params acc fetched t0 (pages.map Except.ok) = Except.ok r →
      ∃ m, m ≤ pages.length
        ∧ r.trace = t0 ++ (List.range m).map (fun j => params ++ sParams pages j)
        ∧ ∀ j, j < m → (sParams pages j).length = j := by
  intro pages
  induction pages with
  | nil =>
    intro limit params acc fetched t0 r h
    simp only [List.map_nil, runPages] at h
    injection h with h2
    subst h2
    refine ⟨0, Nat.le_refl 0, by simp, by omega⟩
  | cons p rest ih =>
    intro limit params acc fetched t0 r h
    simp only [List.map_cons, runPages] at h
    split at h
    next acc2 heq =>
      injection h with h2
      subst h2
      refine ⟨1, by simp, ?_, ?_⟩
      · simp [List.range_succ, sParams_zero]
      · intro j hj
        have hj0 : j = 0 := by omega
        subst hj0
        rfl
    next acc2 heq =>
      cases hn : p.next with
      | none =>
        rw [hn] at h
        injection h with h2
        subst h2
        refine ⟨1, by simp, ?_, ?_⟩
        · simp [List.range_succ, sParams_zero]
        · intro j hj
          have hj0 : j = 0 := by omega
          subst hj0
          rfl
      | some nxt =>
        rw [hn] at h
        obtain ⟨m, hm, htr, hlen⟩ :=
          ih limit (params ++ [("s", cursorOfNext nxt)]) acc2 (fetched + 1)
            (t0 ++ [params]) r h
        have hf : (fun j => (params ++ [("s", cursorOfNext nxt)]) ++ sParams rest j)
            = fun j => params ++ sParams (p :: rest) (j + 1) := by
          funext j
          rw [sParams_succ_cons rest j hn]
          simp
        refine ⟨m + 1, by simpa using hm, ?_, ?_⟩
        · rw [htr, hf, List.range_succ_eq_map]
          simp [sParams_zero, List.map_map, Function.comp]
        · intro j hj
          cases j with
          | zero => rfl
          | succ j2 =>
            rw [sParams_succ_cons rest j2 hn]
            simp only [List.length_cons]
            rw [hlen j2 (by omega)]

/-- C10: in every successful pagination run, the parameter list recorded
for the k-th issued page request (k counted from zero) is exactly the
initial fixed parameters followed by one ("s", cursor) pair per previously
consumed page, in insertion order — so the request for 1-indexed page k
carries k-1 parameters with key "s" — and each later request's parameter
list extends the previous one by a single appended ("s", cursor) pair:
earlier cursors are never removed and the list only grows. -/
theorem c10_theorem {α : Type} :
    ∀ (limit : Option Nat) (init : List (String × String)) (pages : List (Page α))
      (r : PagResult α),
      runPages limit init [] 0 [] (pages.map Except.ok) = Except.ok r →
      ∀ k, k < r.trace.length →
        r.trace[k]? = some (init ++ sParams pages k)
        ∧ (sParams pages k).length = k
        ∧ (init ++ sParams pages k).countP (fun q => q.1 == "s")
            = init.countP (fun q => q.1 == "s") + k
        ∧ (k + 1 < r.trace.length →
            ∃ c, r.trace[k + 1]? = some ((init ++ sParams pages k) ++ [("s", c)])) := by
  intro limit init pages r h k hk
  obtain ⟨m, hm, htr, hlen⟩ := runPages_trace pages limit init [] 0 [] r h
  have htl : r.trace.length = m := by
    rw [htr]
    simp
  rw [htl] at hk
  have hget : ∀ j, j < m → r.trace[j]? = some (init ++ sParams pages j) := by
    intro j hj
    rw [htr]
    simp [List.getElem?_map, List.getElem?_range hj]
  refine ⟨hget k hk, hlen k hk, ?_, ?_⟩
  · rw [List.countP_append, sParams_countP, hlen k hk]
  · intro hk1
    rw [htl] at hk1
    have h1 : (sParams pages (k + 1)).length = k + 1 := hlen (k + 1) hk1
    cases hg : pages[k]? with
    | none =>
      rw [sParams_succ_stuck (by intro p hp; rw [hg] at hp; cases hp), hlen k hk] at h1
      omega
    | some p =>
      cases hpn : p.next with
      | none =>
        rw [sParams_succ_stuck (by
              intro q hq
              rw [hg] at hq
              cases hq
              exact hpn), hlen k hk] at h1
        omega
      | some nxt =>
        refine ⟨cursorOfNext nxt, ?_⟩
        rw [hget (k + 1) hk1, sParams_succ_get hg hpn]
        simp [List.append_assoc]

/-- The concrete outcome of the no-limit run against the three-page mock. -/
def mockRun : PagResult Nat :=
  { results := [1, 2, 3, 4, 5, 6, 7, 8, 9]
    params := [("q", "r"), ("s", "c1"), ("s", "c2")]
    trace := [[("q", "r")],
              [("q", "r"), ("s", "c1")],
              [("q", "r"), ("s", "c1"), ("s", "c2")]]
    fetched := 3
    halt := Halt.noNext }

/-- C10 witness: in the mock run, the second page request carries the
initial parameter plus exactly one extracted cursor pair. -/
theorem c10_witness :
    runPages none [("q", "r")] ([] : List Nat) 0 [] (mockPages.map Except.ok)
        = Except.ok mockRun
      ∧ mockRun.trace[1]? = some ([("q", "r")] ++ sParams mockPages 1)
      ∧ (sParams mockPages 1).length = 1 := by
  have hrun : runPages none [("q", "r")] ([] : List Nat) 0 [] (mockPages.map Except.ok)
      = Except.ok mockRun := by decide
  have h := c10_theorem none [("q", "r")] mockPages mockRun hrun 1 (by decide)
  exact ⟨hrun, h.1, h.2.1⟩

end DuckDuckGo
